import Mathlib

/-!
Verification model of the disco video-endpoint discovery system.

The Python source keeps endpoint records as mutable dicts with an evolving
key schema.  We embed a record as an insertion-ordered association list from
a fixed key enumeration to a value type covering every value shape the
modelled code stores.  Network and DNS input/output is embedded as an
explicit environment (one oracle per host), and the regular-expression and
DOM queries that the vendor parsers run over a fetched HTML body are
embedded as an abstract body record holding the outcome of each query.
-/

namespace Disco

/-- The dict keys used by the modelled code (endpoint records, parser
outputs and the Cisco XML API output). -/
inductive Key where
  | ip
  | hostname
  | open_ports
  | type
  | name
  | manufacturer
  | model
  | sw_version
  | serial
  | mac_address
  | uri
  | status
  | capabilities
  | system_name
  | sip_uri
  | contact_info
  | product_type
  | ip_address
  | subnet_mask
  | gateway
  | sip_status
  | system_time
  | cameras
  | product_id
  deriving DecidableEq, Repr

/-- One camera entry extracted from the Cisco XML API: a Python dict with
keys model, serial_number, connected, each present only when parsed. -/
structure Camera where
  model : Option String := none
  serial_number : Option String := none
  connected : Option Bool := none
  deriving DecidableEq, Repr

/-- The value shapes stored in endpoint records by the modelled code.
pyNone models a Python None stored as a dict value (this happens in one
place: the Cisco status.xml software-version branch assigns .text without a
truthiness check). -/
inductive Value where
  | str : String → Value
  | pyNone : Value
  | ports : List Nat → Value
  | strs : List String → Value
  | cams : List Camera → Value
  deriving DecidableEq, Repr

/-- Python str() of a Camera dict, used only when such a value is
interpolated into an f-string. -/
def Camera.pyRepr (c : Camera) : String :=
  let parts :=
    (match c.model with
      | some v => ["\x27model\x27: \x27" ++ v ++ "\x27"]
      | none => []) ++
    (match c.serial_number with
      | some v => ["\x27serial_number\x27: \x27" ++ v ++ "\x27"]
      | none => []) ++
    (match c.connected with
      | some b => ["\x27connected\x27: " ++ (if b then "True" else "False")]
      | none => [])
  "\x7b" ++ String.intercalate ", " parts ++ "\x7d"

/-- Python str() of a stored value, as an f-string would render it. -/
def Value.pyStr : Value → String
  | Value.str s => s
  | Value.pyNone => "None"
  | Value.ports l => "[" ++ String.intercalate ", " (l.map (fun n => toString n)) ++ "]"
  | Value.strs l => "[" ++ String.intercalate ", " (l.map (fun s => "\x27" ++ s ++ "\x27")) ++ "]"
  | Value.cams l => "[" ++ String.intercalate ", " (l.map Camera.pyRepr) ++ "]"

/-- An endpoint record: a Python dict in insertion order with unique keys. -/
abbrev Dict := List (Key × Value)

/-- Dict lookup (Python d[k] / k in d). -/
def Dict.get : Dict → Key → Option Value
  | [], _ => none
  | (k0, v0) :: rest, k => if k0 = k then some v0 else Dict.get rest k

/-- Python `k in d`. -/
def Dict.hasKey (d : Dict) (k : Key) : Bool :=
  (Dict.get d k).isSome

/-- Python d[k] = v: replace in place when the key exists, else append,
preserving insertion order exactly as a Python dict does. -/
def Dict.set : Dict → Key → Value → Dict
  | [], k, v => [(k, v)]
  | (k0, v0) :: rest, k, v =>
    if k0 = k then (k, v) :: rest else (k0, v0) :: Dict.set rest k v

/-- Python d.update(other): set every entry of other into d, in order. -/
def Dict.update (d other : Dict) : Dict :=
  other.foldl (fun acc kv => Dict.set acc kv.1 kv.2) d

/-- The keys of a record in insertion order. -/
def Dict.keys (d : Dict) : List Key :=
  d.map Prod.fst

/-- First-of-two option combinator used to state merge results. -/
def optOr (a b : Option Value) : Option Value :=
  match a with
  | some v => some v
  | none => b

/-- Whether the pattern starts the character list. -/
def startsWithChars : List Char → List Char → Bool
  | _, [] => true
  | [], _ :: _ => false
  | c :: cs, pc :: pcs => (c == pc) && startsWithChars cs pcs

/-- Whether the pattern occurs anywhere in the character list. -/
def containsChars : List Char → List Char → Bool
  | _, [] => true
  | [], _ :: _ => false
  | c :: cs, pat => startsWithChars (c :: cs) pat || containsChars cs pat

/-- Python `sub in s` substring test. -/
def containsSub (s pat : String) : Bool :=
  containsChars s.toList pat.toList

/-- Python str.lower() (ASCII case folding, as the modelled data uses). -/
def pyLower (s : String) : String :=
  String.mk (s.toList.map Char.toLower)

/-- Python str.strip(): whitespace removed from both ends. -/
def pyTrim (s : String) : String :=
  String.mk (((s.toList.dropWhile Char.isWhitespace).reverse.dropWhile
    Char.isWhitespace).reverse)

/-- Python str.capitalize(): first character upper, rest lowered. -/
def pyCapitalize (s : String) : String :=
  match s.toList with
  | [] => ""
  | c :: cs => String.mk (c.toUpper :: cs.map Char.toLower)

/-- Replace every leftmost non-overlapping occurrence of the (nonempty)
pattern, as Python str.replace does; fuel is the list length. -/
def replaceChars (pat rep : List Char) : Nat → List Char → List Char
  | 0, _ => []
  | _, [] => []
  | Nat.succ fuel, c :: cs =>
    if pat ≠ [] ∧ startsWithChars (c :: cs) pat then
      rep ++ replaceChars pat rep fuel (cs.drop (pat.length - 1))
    else c :: replaceChars pat rep fuel cs

/-- Python s.replace(pat, rep) for a nonempty pattern. -/
def pyReplace (s pat rep : String) : String :=
  String.mk (replaceChars pat.toList rep.toList (s.toList.length + 1) s.toList)

/-! ## XML documents

An already-parsed XML element tree, the result of a successful
xml.etree.ElementTree.fromstring. -/

/-- An XML element: tag, text content (None for an empty element, as in
ElementTree), and child elements in document order. -/
inductive Xml where
  | elem : String → Option String → List Xml → Xml

def Xml.tag : Xml → String
  | Xml.elem t _ _ => t

def Xml.text : Xml → Option String
  | Xml.elem _ tx _ => tx

def Xml.children : Xml → List Xml
  | Xml.elem _ _ cs => cs

/-- ElementTree findall over a relative child path: all matches of the
whole path in document order (per path step: matching children in order). -/
def selectPath (e : Xml) (path : List String) : List Xml :=
  path.foldl
    (fun cur t => cur.flatMap (fun x => (Xml.children x).filter (fun c => Xml.tag c == t)))
    [e]

/-- ElementTree find: the first match of the path, or None. -/
def findPath (e : Xml) (path : List String) : Option Xml :=
  (selectPath e path).head?

/-- The text of an element when Python would consider it truthy
(present and nonempty), as in the sources idiom
`if el is not None and el.text:`. -/
def Xml.truthyText (e : Xml) : Option String :=
  match Xml.text e with
  | some t => if t = "" then none else some t
  | none => none

/-- find the path, then keep its text only when truthy. -/
def findTruthy (root : Xml) (path : List String) : Option String :=
  (findPath root path).bind Xml.truthyText

/-- How an f-string renders el.text (None renders as the string None). -/
def textRepr (e : Xml) : String :=
  match Xml.text e with
  | some t => t
  | none => "None"

/-! ## The network environment

All network input/output of the modelled code is embedded as an oracle per
host.  An HTTP response body is abstract: the regular-expression and DOM
queries the code runs against it are each recorded as a field holding that
query result, and the substring sniffs as booleans. -/

/-- The outcome of every regex / DOM query the code runs over one fetched
HTML body.  Fields named after the query they model; a some value is the
(unstripped) captured group. -/
structure Body where
  containsCisco : Bool := false
  containsPolycom : Bool := false
  containsTandberg : Bool := false
  containsWebex : Bool := false
  containsRoom : Bool := false
  containsCodec : Bool := false
  -- parse_cisco_details: title regex group 1 (Cisco/Webex prefixes consumed by the regex)
  ciscoTitle : Option String := none
  -- parse_cisco_details software-version patterns 1, 1.5, 2, 3, 4, 5
  ciscoSwSpan : Option String := none
  ciscoSwInfoDiv : Option String := none
  ciscoSwTable : Option String := none
  ciscoSwLabel : Option String := none
  ciscoSwBlock : Option String := none
  ciscoSwPara : Option String := none
  -- parse_cisco_details serial patterns 1, 1.5, 2, 3, 4, 5
  ciscoSerialDiv : Option String := none
  ciscoSerialSpan : Option String := none
  ciscoSerialTable : Option String := none
  ciscoSerialLabel : Option String := none
  ciscoSerialBlock : Option String := none
  ciscoSerialPara : Option String := none
  -- parse_cisco_details MAC patterns 1, 1.5, 2, 3, 4
  ciscoMacDiv : Option String := none
  ciscoMacSpan : Option String := none
  ciscoMacTable : Option String := none
  ciscoMacLabel : Option String := none
  ciscoMacBlock : Option String := none
  -- parse_cisco_details BeautifulSoup sibling fallbacks (software, serial)
  ciscoBsSw : Option String := none
  ciscoBsSerial : Option String := none
  -- parse_polycom_details: title group 1, software div, software table alt, system name div
  polyTitle : Option String := none
  polySwDiv : Option String := none
  polySwAlt : Option String := none
  polySysName : Option String := none
  -- parse_tandberg_details: title group 1, software div, software table alt, product id div
  tbTitle : Option String := none
  tbSwDiv : Option String := none
  tbSwAlt : Option String := none
  tbProduct : Option String := none
  -- parse_generic_details: soup.title text, and the first nonempty stripped
  -- sibling of a version/software/firmware text node
  genericTitle : Option String := none
  genericVersion : Option String := none

/-- The two readings of one HTTP response text: as HTML (query outcomes)
and as XML (None models an ElementTree parse error). -/
structure Text where
  asHtml : Body := {}
  asXml : Option Xml := none

/-- An HTTP response: status code and body. -/
structure HttpResp where
  status : Nat
  text : Text := {}

/-- The network behaviour of one host: TCP connect outcome per port (false
covers refused, timeout and socket errors, all treated alike by the code),
reverse DNS outcome (none models a resolution failure), and the HTTP
response per (url, username, password) request (none models a requests
exception). -/
structure HostEnv where
  connect : Nat → Bool := fun _ => false
  resolve : Option String := none
  http : String → String → String → Option HttpResp := fun _ _ _ => none

/-- The whole network: one HostEnv per host address string. -/
def Env := String → HostEnv

/-- The all-failing network: nothing connects, resolves or responds. -/
def envDead : Env := fun _ => {}

/-- Python endpoint.get(open_ports, []) with a ports-typed value
(the modelled code only ever stores lists of ints under open_ports). -/
def portsOf (e : Dict) : List Nat :=
  match Dict.get e Key.open_ports with
  | some (Value.ports l) => l
  | _ => []

/-! ## Cisco XML API (endpoint_details.access_cisco_xml_api)

The status.xml / config.xml extraction code is a sequence of independent
conditional assignments, each reading only the parsed XML root.  We embed
it as a list of (key, optional value) pairs folded into the dict. -/

/-- Set a key only when the optional value is present. -/
def setIfSomeV (d : Dict) (k : Key) (o : Option Value) : Dict :=
  match o with
  | some v => Dict.set d k v
  | none => d

/-- Fold a field list into a dict, setting each present value in order. -/
def applyFields (d : Dict) (fields : List (Key × Option Value)) : Dict :=
  fields.foldl (fun acc kv => setIfSomeV acc kv.1 kv.2) d

/-- SystemUnit/ProductId, with every occurrence of a literal Cisco-blank
prefix removed when the text contains Cisco (Python str.replace). -/
def productIdValue (root : Xml) : Option Value :=
  (findTruthy root ["SystemUnit", "ProductId"]).map
    (fun t => Value.str (if containsSub t "Cisco" then pyReplace t "Cisco " "" else t))

/-- Software version: DisplayName and Version element presence is checked
with `is not None` only, so a missing .text renders as None in the joined
f-string, and the bare elif assigns .text directly (possibly a Python
None value). -/
def swVersionValue (root : Xml) : Option Value :=
  match findPath root ["SystemUnit", "Software", "DisplayName"],
        findPath root ["SystemUnit", "Software", "Version"] with
  | some a, some b => some (Value.str (textRepr a ++ " " ++ textRepr b))
  | none, some b =>
    some (match Xml.text b with
      | some t => Value.str t
      | none => Value.pyNone)
  | _, none => none

/-- MAC address: SystemUnit/Hardware/MACAddress, else
Network/Ethernet/MacAddress, then the truthy-text check. -/
def macValue (root : Xml) : Option Value :=
  (match findPath root ["SystemUnit", "Hardware", "MACAddress"] with
    | some el => some el
    | none => findPath root ["Network", "Ethernet", "MacAddress"]).bind
    (fun el => (Xml.truthyText el).map Value.str)

/-- One Camera child: model, serial_number and connected are set only when
truthy; the camera is kept only when the info dict is nonempty. -/
def cameraValue (c : Xml) : Option Camera :=
  let cam : Camera :=
    { model := findTruthy c ["Model"]
      serial_number := findTruthy c ["SerialNumber"]
      connected := (findTruthy c ["Connected"]).map (fun t => pyLower t == "true") }
  if cam.model = none ∧ cam.serial_number = none ∧ cam.connected = none then none
  else some cam

/-- Cameras/Camera list, kept only when nonempty. -/
def camerasValue (root : Xml) : Option Value :=
  let cams := (selectPath root ["Cameras", "Camera"]).filterMap cameraValue
  if cams = [] then none else some (Value.cams cams)

/-- The conditional assignments of the status.xml block, in source order. -/
def statusFields (root : Xml) : List (Key × Option Value) :=
  [ (Key.model, productIdValue root),
    (Key.sw_version, swVersionValue root),
    (Key.serial, (findTruthy root ["SystemUnit", "Hardware", "SerialNumber"]).map Value.str),
    (Key.mac_address, macValue root),
    (Key.product_type, (findTruthy root ["SystemUnit", "ProductType"]).map Value.str),
    (Key.ip_address, (findTruthy root ["Network", "IPv4", "Address"]).map Value.str),
    (Key.subnet_mask, (findTruthy root ["Network", "IPv4", "SubnetMask"]).map Value.str),
    (Key.gateway, (findTruthy root ["Network", "IPv4", "Gateway"]).map Value.str),
    (Key.sip_status, (findTruthy root ["SIP", "Registration", "Status"]).map Value.str),
    (Key.sip_uri, (findTruthy root ["SIP", "Registration", "URI"]).map Value.str),
    (Key.system_time, (findTruthy root ["Time", "SystemTime"]).map Value.str),
    (Key.cameras, camerasValue root) ]

/-- SystemUnit/Name with the SystemUnit/n fallback used by test fixtures. -/
def systemNameValue (root : Xml) : Option Value :=
  ((match findPath root ["SystemUnit", "Name"] with
    | some el => some el
    | none => findPath root ["SystemUnit", "n"]).bind Xml.truthyText).map Value.str

/-- ContactInfo Name (or n) with the optional appended contact number. -/
def contactInfoValue (root : Xml) : Option Value :=
  match (match findPath root ["SystemUnit", "ContactInfo", "Name"] with
          | some el => some el
          | none => findPath root ["SystemUnit", "ContactInfo", "n"]).bind Xml.truthyText with
  | some nm =>
    some (Value.str
      (match findTruthy root ["SystemUnit", "ContactInfo", "ContactNumber"] with
        | some num => nm ++ " (" ++ num ++ ")"
        | none => nm))
  | none => none

/-- The conditional assignments of the config.xml block, in source order. -/
def configFields (root : Xml) : List (Key × Option Value) :=
  [ (Key.system_name, systemNameValue root),
    (Key.sip_uri, (findTruthy root ["SIP", "URI"]).map Value.str),
    (Key.contact_info, contactInfoValue root) ]

/-- Parse one fetched status.xml document into the details dict. -/
def parseStatusXml (root : Xml) (d : Dict) : Dict :=
  applyFields d (statusFields root)

/-- Parse one fetched config.xml document into the details dict. -/
def parseConfigXml (root : Xml) (d : Dict) : Dict :=
  applyFields d (configFields root)

/-- Fetch one XML document: the parsed root when the request succeeded
with status 200 and the body parsed; a requests exception, a non-200
status and an ElementTree parse error all leave the details of the caller
unchanged, so they collapse to no document here. -/
def fetchXml (env : Env) (ip url u p : String) : Option Xml :=
  match (env ip).http url u p with
  | some resp => if resp.status = 200 then resp.text.asXml else none
  | none => none

/-- Apply one per-file parse step when a document was fetched. -/
def xmlFileStep (o : Option Xml) (parse : Xml → Dict → Dict) (d : Dict) : Dict :=
  match o with
  | some root => parse root d
  | none => d

/-- The details dict that access_cisco_xml_api accumulates for a given
endpoint ip: seeded with manufacturer Cisco, then each of status.xml and
config.xml is fetched and parsed independently, every per-file failure
being caught inside the try block of that file. -/
def ciscoXmlDetailsFrom (env : Env) (u p : String) (e : Dict) (ip : String) : Dict :=
  let base := if 443 ∈ portsOf e then "https://" ++ ip else "http://" ++ ip
  xmlFileStep (fetchXml env ip (base ++ "/config.xml") u p) parseConfigXml
    (xmlFileStep (fetchXml env ip (base ++ "/status.xml") u p) parseStatusXml
      [(Key.manufacturer, Value.str "Cisco")])

/-- endpoint_details.access_cisco_xml_api: returns None when nothing beyond
the seeded manufacturer was populated, otherwise the details dict.  The
Except error models the uncaught KeyError when the endpoint has no ip. -/
def access_cisco_xml_api (env : Env) (u p : String) (e : Dict) :
    Except Unit (Option Dict) :=
  match Dict.get e Key.ip with
  | some (Value.str ip) =>
    let d := ciscoXmlDetailsFrom env u p e ip
    Except.ok (if d.length ≤ 1 then none else some d)
  | _ => Except.error ()

/-! ## Vendor HTML parsers (endpoint_details.parse_*_details) -/

/-- Set a key from a regex group, stripped, when the pattern matched. -/
def setIfSomeStr (d : Dict) (k : Key) (o : Option String) : Dict :=
  match o with
  | some v => Dict.set d k (Value.str (pyTrim v))
  | none => d

/-- The first matching pattern of a try-in-order chain. -/
def firstSome (l : List (Option String)) : Option String :=
  l.findSome? (fun o => o)

/-- endpoint_details.parse_cisco_details: model from the title (with the
Webex re-prefixing rule), then software version, serial and MAC through
their pattern chains, then the BeautifulSoup sibling fallback when
software version or serial is still missing. -/
def parse_cisco_details (b : Body) : Dict :=
  let d : Dict := [(Key.manufacturer, Value.str "Cisco")]
  let d := setIfSomeV d Key.model (b.ciscoTitle.map (fun t0 =>
    let t := pyTrim t0
    Value.str
      (if !(containsSub (pyLower t) "webex") && !(containsSub (pyLower t) "telepresence") then
        "Webex " ++ t
      else t)))
  let d := setIfSomeStr d Key.sw_version
    (firstSome [b.ciscoSwSpan, b.ciscoSwInfoDiv, b.ciscoSwTable, b.ciscoSwLabel,
                b.ciscoSwBlock, b.ciscoSwPara])
  let d := setIfSomeStr d Key.serial
    (firstSome [b.ciscoSerialDiv, b.ciscoSerialSpan, b.ciscoSerialTable,
                b.ciscoSerialLabel, b.ciscoSerialBlock, b.ciscoSerialPara])
  let d := setIfSomeStr d Key.mac_address
    (firstSome [b.ciscoMacDiv, b.ciscoMacSpan, b.ciscoMacTable, b.ciscoMacLabel,
                b.ciscoMacBlock])
  if !(Dict.hasKey d Key.sw_version && Dict.hasKey d Key.serial)
      || (Dict.get d Key.sw_version == some (Value.str "Unknown")) then
    let d := if Dict.hasKey d Key.sw_version then d
             else setIfSomeStr d Key.sw_version b.ciscoBsSw
    if Dict.hasKey d Key.serial then d
    else setIfSomeStr d Key.serial b.ciscoBsSerial
  else d

/-- endpoint_details.parse_polycom_details. -/
def parse_polycom_details (b : Body) : Dict :=
  let d : Dict := [(Key.manufacturer, Value.str "Polycom")]
  let d := setIfSomeStr d Key.model b.polyTitle
  let d := setIfSomeStr d Key.sw_version (firstSome [b.polySwDiv, b.polySwAlt])
  setIfSomeStr d Key.system_name b.polySysName

/-- endpoint_details.parse_tandberg_details. -/
def parse_tandberg_details (b : Body) : Dict :=
  let d : Dict := [(Key.manufacturer, Value.str "TANDBERG")]
  let d := setIfSomeStr d Key.model b.tbTitle
  let d := setIfSomeStr d Key.sw_version (firstSome [b.tbSwDiv, b.tbSwAlt])
  setIfSomeStr d Key.product_id b.tbProduct

/-- The fixed vendor keyword list of the generic parser, in trial order. -/
def genericManufacturers : List String :=
  ["cisco", "polycom", "tandberg", "webex", "lifesize", "avaya", "huawei", "zoom"]

/-- Case-insensitive check whether the lowered needle starts the haystack. -/
def startsWithCI : List Char → List Char → Bool
  | _, [] => true
  | [], _ :: _ => false
  | c :: cs, pc :: pcs => (c.toLower == pc.toLower) && startsWithCI cs pcs

/-- Remove every (leftmost, non-overlapping) case-insensitive occurrence of
the pattern, as re.sub with IGNORECASE over an escaped literal does. -/
def eraseCIAux (pat : List Char) : Nat → List Char → List Char
  | 0, _ => []
  | _, [] => []
  | Nat.succ fuel, c :: cs =>
    if pat ≠ [] ∧ startsWithCI (c :: cs) pat then
      eraseCIAux pat fuel (cs.drop (pat.length - 1))
    else c :: eraseCIAux pat fuel cs

def eraseCI (s pat : String) : String :=
  String.mk (eraseCIAux pat.toList (s.toList.length + 1) s.toList)

/-- The generic-parser title step: find a known vendor keyword in the
stripped title, canonicalise it (tandberg uppercased, webex mapped to
Cisco, otherwise capitalised), and strip the canonical name from the title
as the model guess (kept only when nonempty). -/
def genericFromTitle (title0 : String) : Dict :=
  let title := pyTrim title0
  match genericManufacturers.find? (fun m => containsSub (pyLower title) m) with
  | some m =>
    let found :=
      if m = "tandberg" then "TANDBERG"
      else if m = "webex" then "Cisco"
      else pyCapitalize m
    let d := Dict.set [] Key.manufacturer (Value.str found)
    let model := pyTrim (eraseCI title found)
    if model ≠ "" then Dict.set d Key.model (Value.str model) else d
  | none => []

/-- endpoint_details.parse_generic_details: the title step, then the
version oracle (the first nonempty stripped sibling of a version-like text
node) when present. -/
def parse_generic_details (b : Body) : Dict :=
  let d :=
    match b.genericTitle with
    | some title0 => genericFromTitle title0
    | none => []
  match b.genericVersion with
  | some v => Dict.set d Key.sw_version (Value.str v)
  | none => d

/-- endpoint_details.get_endpoint_uri.  None models the KeyError on a
record without an ip. -/
def get_endpoint_uri (e : Dict) : Option String :=
  match Dict.get e Key.ip with
  | some (Value.str ip) =>
    let open_ports := portsOf e
    if 443 ∈ open_ports then some ("https://" ++ ip)
    else if 80 ∈ open_ports then some ("http://" ++ ip)
    else some ("http://" ++ ip)
  | _ => none

/-! ## Detail extractor (endpoint_details.extract_endpoint_details)

The function body is embedded phase by phase, mirroring the source
paragraphs: the keyword sniff, the vendor dispatch, the web fetch, the
Cisco XML API enhancement, and the final name derivation. -/

/-- Python str() of an optional dict value for f-string interpolation; the
none branch is unreachable in the modelled flows (the keys interpolated are
always present) and exists only for totality. -/
def pyStrOpt (o : Option Value) : String :=
  match o with
  | some v => Value.pyStr v
  | none => ""

/-- The four keyword sniffs over the fetched body, each overwriting the
manufacturer in source order (cisco, webex, tandberg, polycom). -/
def sniffManufacturer (b : Body) (d : Dict) : Dict :=
  let d := if b.containsCisco then Dict.set d Key.manufacturer (Value.str "Cisco") else d
  let d := if b.containsWebex then Dict.set d Key.manufacturer (Value.str "Cisco") else d
  let d := if b.containsTandberg then Dict.set d Key.manufacturer (Value.str "TANDBERG") else d
  if b.containsPolycom then Dict.set d Key.manufacturer (Value.str "Polycom") else d

/-- Dispatch to the vendor parser matching the sniffed manufacturer and
merge its output over the details (parser keys win). -/
def dispatchParse (b : Body) (d : Dict) : Dict :=
  if Dict.get d Key.manufacturer = some (Value.str "Cisco") then
    Dict.update d (parse_cisco_details b)
  else if Dict.get d Key.manufacturer = some (Value.str "TANDBERG") then
    Dict.update d (parse_tandberg_details b)
  else if Dict.get d Key.manufacturer = some (Value.str "Polycom") then
    Dict.update d (parse_polycom_details b)
  else
    Dict.update d (parse_generic_details b)

/-- The step-1 GET: https of the ip (the source always uses the https
scheme here, whatever the open ports); an exception and a non-200 status
both leave the details unchanged, so they collapse to no body here. -/
def fetchHtml (env : Env) (ip u p : String) : Option Body :=
  match (env ip).http ("https://" ++ ip) u p with
  | some resp => if resp.status = 200 then some resp.text.asHtml else none
  | none => none

/-- Steps 1-3: fetch the web root and, when a 200 body came back, sniff
the manufacturer keywords and dispatch to the vendor parser. -/
def htmlPhase (env : Env) (u p ip : String) (d : Dict) : Dict :=
  match fetchHtml env ip u p with
  | some b => dispatchParse b (sniffManufacturer b d)
  | none => d

/-- Step 4: query the Cisco XML API when the manufacturer resolved to Cisco,
or is still Unknown with port 443 open; merge its dict over the details when
it returned data, and swallow both a None result and an exception. -/
def xmlPhase (env : Env) (u p : String) (e : Dict) (d : Dict) : Dict :=
  if Dict.get d Key.manufacturer = some (Value.str "Cisco")
      ∨ (Dict.get d Key.manufacturer = some (Value.str "Unknown") ∧ 443 ∈ portsOf e) then
    match access_cisco_xml_api env u p e with
    | Except.ok (some xml) => Dict.update d xml
    | _ => d
  else d

/-- Step 5: overwrite the display name when both manufacturer and model
resolved beyond Unknown, interpolating the current dict values. -/
def namePhase (d : Dict) : Dict :=
  if Dict.get d Key.manufacturer ≠ some (Value.str "Unknown")
      ∧ Dict.get d Key.model ≠ some (Value.str "Unknown") then
    Dict.set d Key.name
      (Value.str (pyStrOpt (Dict.get d Key.manufacturer) ++ " "
        ++ pyStrOpt (Dict.get d Key.model) ++ " at "
        ++ pyStrOpt (Dict.get d Key.hostname)))
  else d

/-- The details dict extract_endpoint_details initialises from the
endpoint: ip, hostname (falling back to the ip when the key is absent),
Unknown manufacturer/model/version, the https uri, the input type and the
ip-based display name. -/
def defaultDetails (ip : String) (hostv tv : Value) : Dict :=
  [ (Key.ip, Value.str ip),
    (Key.hostname, hostv),
    (Key.manufacturer, Value.str "Unknown"),
    (Key.model, Value.str "Unknown"),
    (Key.sw_version, Value.str "Unknown"),
    (Key.uri, Value.str ("https://" ++ ip)),
    (Key.type, tv),
    (Key.name, Value.str ("Device at " ++ ip)) ]

/-- Credential defaulting: when either is missing both fall back to the
admin / TANDBERG pair. -/
def credsOf (username password : Option String) : String × String :=
  match username, password with
  | some u, some p => (u, p)
  | _, _ => ("admin", "TANDBERG")

/-- endpoint_details.extract_endpoint_details.  The Except error models the
uncaught KeyError when the record lacks ip or type (both are read before
any try block).  A non-video endpoint returns the defaults untouched. -/
def extract_endpoint_details (env : Env) (username password : Option String) (e : Dict) :
    Except Unit Dict :=
  match Dict.get e Key.ip, Dict.get e Key.type with
  | some (Value.str ip), some tv =>
    let details0 := defaultDetails ip ((Dict.get e Key.hostname).getD (Value.str ip)) tv
    if tv ≠ Value.str "video_endpoint" then Except.ok details0
    else
      let creds := credsOf username password
      Except.ok (namePhase (xmlPhase env creds.1 creds.2 e
        (htmlPhase env creds.1 creds.2 ip details0)))
  | _, _ => Except.error ()

/-! ## Endpoint classification worker pool
(endpoint_classification.EndpointClassificationWorker / classify_endpoints) -/

/-- The per-item body of EndpointClassificationWorker.run: a successful
extraction is merged (original name/hostname/ip/open_ports/type backfilled
where the extractor dropped them, then status and capabilities defaults)
and appended; an extraction exception appends the original endpoint.
The model assumes the endpoint carries an ip: without one the except
branch itself raises while formatting its log line, killing the worker
thread and losing the record, which is outside this relation. -/
def backfillStep (e : Dict) (acc : Dict) (k : Key) : Dict :=
  match Dict.get e k, Dict.get acc k with
  | some v, none => Dict.set acc k v
  | _, _ => acc

/-- The keys the worker preserves from the original endpoint. -/
def preservedKeys : List Key :=
  [Key.name, Key.hostname, Key.ip, Key.open_ports, Key.type]

/-- Backfill the original endpoint fields the extractor output lacks. -/
def backfillKeys (e d : Dict) : Dict :=
  preservedKeys.foldl (backfillStep e) d

/-- Post-merge defaults: status online and capabilities video+audio when
absent. -/
def applyDefaults (d : Dict) : Dict :=
  let d := if Dict.hasKey d Key.status then d
           else Dict.set d Key.status (Value.str "online")
  if Dict.hasKey d Key.capabilities then d
  else Dict.set d Key.capabilities (Value.strs ["video", "audio"])

/-- The records one queue item contributes to the shared results list. -/
def workerStep (env : Env) (u p : String) (e : Dict) : List Dict :=
  match extract_endpoint_details env (some u) (some p) e with
  | Except.ok d => [applyDefaults (backfillKeys e d)]
  | Except.error _ => if (Dict.get e Key.ip).isSome then [e] else []

/-- endpoint_classification.classify_endpoints as an outcome relation:
with no workers the queue is never drained and the empty list is returned;
with at least one worker every queued endpoint is processed exactly once
and appended under the lock, in an order driven by thread scheduling, so
the possible results are exactly the permutations of the per-item
contributions. -/
def classify_endpoints (env : Env) (u p : String) (n : Nat)
    (endpoints out : List Dict) : Prop :=
  if n = 0 then out = []
  else out.Perm (endpoints.flatMap (workerStep env u p))

/-! ## Port scanner and network sweeper (network_utils) -/

def SIP_PORTS : List Nat := [5060, 5061]

def VIDEO_ENDPOINT_PORTS : List Nat := [80, 443, 5060, 5061, 1720]

/-- The fixed content keyword set of the scan_ip heuristic, as a check over
the body sniff fields. -/
def anyVideoKeyword (b : Body) : Bool :=
  b.containsCisco || b.containsPolycom || b.containsTandberg || b.containsWebex
    || b.containsRoom || b.containsCodec

/-- The hostname keyword fallback (the content set plus meeting). -/
def hostnameKeyword (hostname : String) : Bool :=
  ["cisco", "polycom", "tandberg", "webex", "room", "meeting", "codec"].any
    (fun kw => containsSub (pyLower hostname) kw)

/-- network_utils.scan_ip: probe each port, and when at least one is open
resolve the hostname (falling back to the ip) and run the classification
heuristic; with no open port return None. -/
def scan_ip (env : Env) (ip : String) (ports : List Nat) (force_endpoint : Bool)
    (username password : String) : Option Dict :=
  let he := env ip
  let open_ports := ports.filter he.connect
  if open_ports.isEmpty then none
  else
    let hostname := he.resolve.getD ip
    let v0 : Bool := open_ports.contains 5060 || open_ports.contains 5061
      || open_ports.contains 1720
    let v1 :=
      if open_ports.contains 80 || open_ports.contains 443 then
        let va :=
          if open_ports.contains 80 then
            match he.http ("http://" ++ ip) username password with
            | some r => if (r.status == 200) && anyVideoKeyword r.text.asHtml then true else v0
            | none => v0
          else v0
        let vb :=
          if open_ports.contains 443 && !va then
            match he.http ("https://" ++ ip) username password with
            | some r => if (r.status == 200) && anyVideoKeyword r.text.asHtml then true else va
            | none => va
          else va
        if !vb then (if hostnameKeyword hostname then true else vb) else vb
      else v0
    let isVE := if force_endpoint then true else v1
    let device_type := if isVE then "video_endpoint" else "unknown"
    some [ (Key.ip, Value.str ip),
           (Key.hostname, Value.str hostname),
           (Key.open_ports, Value.ports open_ports),
           (Key.type, Value.str device_type),
           (Key.name, Value.str ("Device at " ++ hostname)) ]

/-- The range the sweep scans: the caller-supplied range unless missing or
empty (Python falsiness), in which case the auto-detected local range. -/
def resolveRange (localRange : String) (ip_range : Option String) : String :=
  match ip_range with
  | some r => if r = "" then localRange else r
  | none => localRange

/-- The two scan phases over an enumerated host list: phase 1 collects the
forced ips (appended during task submission, in host order) and then the
SIP responders (in completion order, modelled as submission order); phase
2 rescans the candidates with the full port set, forcing the forced ips,
and keeps the records. -/
def sweepHosts (env : Env) (force_endpoints : List String) (u p : String)
    (hosts : List String) : List Dict :=
  let phase1 :=
    hosts.filter (fun h => decide (h ∈ force_endpoints)) ++
      (hosts.filter (fun h => decide (h ∉ force_endpoints))).filter
        (fun h => (scan_ip env h SIP_PORTS false u p).isSome)
  phase1.filterMap
    (fun h => scan_ip env h VIDEO_ENDPOINT_PORTS (decide (h ∈ force_endpoints)) u p)

/-- network_utils.scan_network.  The standard-library CIDR parse and host
enumeration (ipaddress.ip_network(range, strict=False).hosts()) is passed
in as the parse oracle, none modelling the ValueError the source catches;
localRange abstracts get_local_network_range, used when the range argument
is missing or empty (Python falsiness).  Completion order of the
concurrent futures is scheduling-dependent; the model fixes submission
order, and the theorems stated about it are permutation-invariant. -/
def scan_network (parse : String → Option (List String)) (env : Env)
    (localRange : String) (ip_range : Option String)
    (force_endpoints : List String) (u p : String) : List Dict :=
  match parse (resolveRange localRange ip_range) with
  | none => []
  | some hosts => sweepHosts env force_endpoints u p hosts

/-! ## Fixtures used by the witness and counterexample theorems -/

/-- A plain unknown-type endpoint with an open HTTP port. -/
def ex6 : Dict :=
  [(Key.ip, Value.str "10.0.0.5"), (Key.open_ports, Value.ports [80]),
   (Key.type, Value.str "unknown")]

/-- An unknown-type endpoint whose hostname resolved away from its ip. -/
def ex7 : Dict :=
  [(Key.ip, Value.str "10.0.0.5"), (Key.hostname, Value.str "room1.example.com"),
   (Key.type, Value.str "unknown")]

/-- An endpoint with an ip but no type key (extraction raises KeyError). -/
def ep4 : Dict := [(Key.ip, Value.str "10.0.0.2")]

/-- A complete endpoint for the worker-pool witnesses. -/
def ep1 : Dict := [(Key.ip, Value.str "10.0.0.1"), (Key.type, Value.str "unknown")]

/-- The claim C8 status.xml fixture as a parsed document. -/
def fixture8 : Xml :=
  Xml.elem "Status" none
    [ Xml.elem "SystemUnit" none
        [ Xml.elem "ProductId" (some "Cisco Webex Room Kit") [],
          Xml.elem "Software" none [Xml.elem "Version" (some "10.11.2.3") []],
          Xml.elem "Hardware" none
            [ Xml.elem "SerialNumber" (some "FTT234500AB") [],
              Xml.elem "MACAddress" (some "00:11:22:33:44:55") [] ] ] ]

/-- A network serving the C8 fixture as status.xml of one host (the host
has no recorded open port 443, so the base url uses the http scheme). -/
def env8 : Env := fun h =>
  if h = "10.0.0.9" then
    { http := fun url _ _ =>
        if url = "http://10.0.0.9/status.xml" then
          some { status := 200, text := { asXml := some fixture8 } }
        else none }
  else {}

/-- The endpoint record the C8 fixture is served for. -/
def e8 : Dict := [(Key.ip, Value.str "10.0.0.9")]

/-- A host that answers only on SIP port 5060. -/
def envSip : Env := fun h =>
  if h = "10.0.0.7" then { connect := fun port => port == 5060 } else {}

/-- The record the worker produces for ep1 against the dead network. -/
def ep1out : Dict :=
  [ (Key.ip, Value.str "10.0.0.1"),
    (Key.hostname, Value.str "10.0.0.1"),
    (Key.manufacturer, Value.str "Unknown"),
    (Key.model, Value.str "Unknown"),
    (Key.sw_version, Value.str "Unknown"),
    (Key.uri, Value.str "https://10.0.0.1"),
    (Key.type, Value.str "unknown"),
    (Key.name, Value.str "Device at 10.0.0.1"),
    (Key.status, Value.str "online"),
    (Key.capabilities, Value.strs ["video", "audio"]) ]

/-- The record the extractor returns for ex7 against the dead network. -/
def d7 : Dict :=
  defaultDetails "10.0.0.5" (Value.str "room1.example.com") (Value.str "unknown")

/-! # Lemmas about the dict embedding -/

theorem Dict.get_set_self (d : Dict) (k : Key) (v : Value) :
    Dict.get (Dict.set d k v) k = some v := by
  induction d with
  | nil => simp [Dict.set, Dict.get]
  | cons hd tl ih =>
    obtain ⟨k0, v0⟩ := hd
    by_cases h : k0 = k
    · simp [Dict.set, Dict.get, h]
    · simp [Dict.set, Dict.get, h, ih]

theorem Dict.keys_cons (k0 : Key) (v0 : Value) (tl : Dict) :
    Dict.keys ((k0, v0) :: tl) = k0 :: Dict.keys tl := rfl

theorem Dict.get_set_ne (d : Dict) {k k2 : Key} (v : Value) (h : k2 ≠ k) :
    Dict.get (Dict.set d k v) k2 = Dict.get d k2 := by
  have hne : ¬(k = k2) := fun hh => h hh.symm
  induction d with
  | nil => simp [Dict.set, Dict.get, hne]
  | cons hd tl ih =>
    obtain ⟨k0, v0⟩ := hd
    by_cases h0 : k0 = k
    · subst h0
      simp [Dict.set, Dict.get, hne]
    · simp [Dict.set, Dict.get, h0, ih]

theorem Dict.get_update_of_none (d : Dict) {o : Dict} {k : Key}
    (h : Dict.get o k = none) :
    Dict.get (Dict.update d o) k = Dict.get d k := by
  induction o generalizing d with
  | nil => simp [Dict.update]
  | cons hd tl ih =>
    obtain ⟨k0, v0⟩ := hd
    simp only [Dict.get] at h
    by_cases h0 : k0 = k
    · simp [h0] at h
    · simp only [if_neg h0] at h
      show Dict.get (Dict.update (Dict.set d k0 v0) tl) k = Dict.get d k
      rw [ih _ h, Dict.get_set_ne _ _ (fun hh => h0 hh.symm)]

theorem Dict.mem_of_get_eq_some {d : Dict} {k : Key} {v : Value}
    (h : Dict.get d k = some v) : (k, v) ∈ d := by
  induction d with
  | nil => simp [Dict.get] at h
  | cons hd tl ih =>
    obtain ⟨k0, v0⟩ := hd
    simp only [Dict.get] at h
    by_cases h0 : k0 = k
    · subst h0
      rw [if_pos rfl] at h
      cases h
      exact List.mem_cons_self _ _
    · exact List.mem_cons_of_mem _ (ih (by simpa [h0] using h))

theorem Dict.get_isSome_of_mem {d : Dict} {k : Key} {v : Value}
    (h : (k, v) ∈ d) : (Dict.get d k).isSome := by
  induction d with
  | nil => simp at h
  | cons hd tl ih =>
    obtain ⟨k0, v0⟩ := hd
    rcases List.mem_cons.1 h with h1 | h1
    · injection h1 with hk hv
      subst hk
      simp [Dict.get]
    · by_cases h0 : k0 = k
      · simp [Dict.get, h0]
      · simpa [Dict.get, h0] using ih h1

theorem Dict.mem_keys_set {d : Dict} {k k2 : Key} {v : Value}
    (h : k2 ∈ Dict.keys (Dict.set d k v)) : k2 ∈ Dict.keys d ∨ k2 = k := by
  induction d with
  | nil =>
    simp [Dict.set, Dict.keys] at h
    exact Or.inr h
  | cons hd tl ih =>
    obtain ⟨k0, v0⟩ := hd
    by_cases h0 : k0 = k
    · subst h0
      simp only [Dict.set, eq_self_iff_true, if_true, Dict.keys_cons,
        List.mem_cons] at h
      simp only [Dict.keys_cons, List.mem_cons]
      rcases h with h | h
      · exact Or.inr h
      · exact Or.inl (Or.inr h)
    · simp only [Dict.set, if_neg h0, Dict.keys_cons, List.mem_cons] at h
      simp only [Dict.keys_cons, List.mem_cons]
      rcases h with h | h
      · exact Or.inl (Or.inl h)
      · rcases ih h with h2 | h2
        · exact Or.inl (Or.inr h2)
        · exact Or.inr h2

theorem Dict.nodup_keys_set {d : Dict} (k : Key) (v : Value)
    (h : (Dict.keys d).Nodup) : (Dict.keys (Dict.set d k v)).Nodup := by
  induction d with
  | nil => simp [Dict.set, Dict.keys]
  | cons hd tl ih =>
    obtain ⟨k0, v0⟩ := hd
    rw [Dict.keys_cons, List.nodup_cons] at h
    by_cases h0 : k0 = k
    · subst h0
      simpa [Dict.set, Dict.keys_cons, List.nodup_cons] using h
    · simp only [Dict.set, if_neg h0, Dict.keys_cons, List.nodup_cons]
      refine ⟨fun hmem => ?_, ih h.2⟩
      rcases Dict.mem_keys_set hmem with h2 | h2
      · exact h.1 h2
      · exact h0 h2

theorem Dict.length_le_one_of_keys_const {d : Dict} {c : Key}
    (hnd : (Dict.keys d).Nodup) (hall : ∀ kv ∈ d, kv.1 = c) : d.length ≤ 1 := by
  match d with
  | [] => simp
  | [x] => simp
  | x :: y :: rest =>
    exfalso
    simp only [Dict.keys, List.map_cons, List.nodup_cons, List.mem_cons,
      List.mem_map] at hnd
    have hx : x.1 = c := hall x (by simp)
    have hy : y.1 = c := hall y (by simp)
    exact hnd.1 (Or.inl (hy ▸ hx))

theorem optOr_self_right (a b : Option Value) :
    optOr (optOr a b) b = optOr a b := by
  cases a <;> cases b <;> rfl

/-! ## Lemmas about the conditional-set helpers -/

theorem setIfSomeV_get_ne (d : Dict) (k : Key) (o : Option Value) {k2 : Key}
    (h : k2 ≠ k) : Dict.get (setIfSomeV d k o) k2 = Dict.get d k2 := by
  cases o <;> simp [setIfSomeV, Dict.get_set_ne _ _ h]

theorem setIfSomeStr_get_ne (d : Dict) (k : Key) (o : Option String) {k2 : Key}
    (h : k2 ≠ k) : Dict.get (setIfSomeStr d k o) k2 = Dict.get d k2 := by
  cases o <;> simp [setIfSomeStr, Dict.get_set_ne _ _ h]

theorem setIfSomeV_nodup (d : Dict) (k : Key) (o : Option Value)
    (h : (Dict.keys d).Nodup) : (Dict.keys (setIfSomeV d k o)).Nodup := by
  cases o <;> simp [setIfSomeV, Dict.nodup_keys_set, h]

theorem applyFields_get_not_mem (fields : List (Key × Option Value)) (d : Dict)
    (k : Key) (h : k ∉ fields.map Prod.fst) :
    Dict.get (applyFields d fields) k = Dict.get d k := by
  induction fields generalizing d with
  | nil => simp [applyFields]
  | cons hd tl ih =>
    obtain ⟨k0, o0⟩ := hd
    simp only [List.map_cons, List.mem_cons] at h
    push_neg at h
    show Dict.get (applyFields (setIfSomeV d k0 o0) tl) k = Dict.get d k
    rw [ih _ h.2, setIfSomeV_get_ne _ _ _ h.1]

theorem applyFields_nodup (fields : List (Key × Option Value)) (d : Dict)
    (h : (Dict.keys d).Nodup) : (Dict.keys (applyFields d fields)).Nodup := by
  induction fields generalizing d with
  | nil => simpa [applyFields] using h
  | cons hd tl ih =>
    obtain ⟨k0, o0⟩ := hd
    show (Dict.keys (applyFields (setIfSomeV d k0 o0) tl)).Nodup
    exact ih _ (setIfSomeV_nodup _ _ _ h)

/-! ## Lemmas about the backfill merge and post-merge defaults -/

theorem backfillStep_get_self (e acc : Dict) (k : Key) :
    Dict.get (backfillStep e acc k) k = optOr (Dict.get acc k) (Dict.get e k) := by
  unfold backfillStep
  cases he : Dict.get e k <;> cases ha : Dict.get acc k <;>
    simp [he, ha, optOr, Dict.get_set_self]

theorem backfillStep_get_ne (e acc : Dict) {k k2 : Key} (h : k2 ≠ k) :
    Dict.get (backfillStep e acc k) k2 = Dict.get acc k2 := by
  unfold backfillStep
  cases he : Dict.get e k <;> cases ha : Dict.get acc k <;>
    simp [he, ha, Dict.get_set_ne _ _ h]

theorem backfill_foldl_get (e : Dict) (ks : List Key) (d : Dict) (k : Key) :
    Dict.get (ks.foldl (backfillStep e) d) k =
      if k ∈ ks then optOr (Dict.get d k) (Dict.get e k) else Dict.get d k := by
  induction ks generalizing d with
  | nil => simp
  | cons k0 ks ih =>
    show Dict.get (ks.foldl (backfillStep e) (backfillStep e d k0)) k = _
    rw [ih]
    by_cases hk : k = k0
    · subst hk
      by_cases hmem : k ∈ ks <;>
        simp [hmem, backfillStep_get_self, optOr_self_right]
    · rw [backfillStep_get_ne _ _ hk]
      simp [List.mem_cons, hk]

theorem applyDefaults_get_ne (d : Dict) {k : Key} (h1 : k ≠ Key.status)
    (h2 : k ≠ Key.capabilities) :
    Dict.get (applyDefaults d) k = Dict.get d k := by
  unfold applyDefaults Dict.hasKey
  cases hs : Dict.get d Key.status <;> cases hc : Dict.get d Key.capabilities <;>
    simp [hs, hc, Dict.get_set_ne _ _ h1, Dict.get_set_ne _ _ h2,
      Dict.get_set_ne _ _ (show Key.capabilities ≠ Key.status by decide)]

theorem applyDefaults_get_status (d : Dict) :
    Dict.get (applyDefaults d) Key.status =
      optOr (Dict.get d Key.status) (some (Value.str "online")) := by
  unfold applyDefaults Dict.hasKey
  cases hs : Dict.get d Key.status <;> cases hc : Dict.get d Key.capabilities <;>
    simp [hs, hc, optOr, Dict.get_set_self,
      Dict.get_set_ne _ _ (show Key.status ≠ Key.capabilities by decide),
      Dict.get_set_ne _ _ (show Key.capabilities ≠ Key.status by decide)]

theorem applyDefaults_get_capabilities (d : Dict) :
    Dict.get (applyDefaults d) Key.capabilities =
      optOr (Dict.get d Key.capabilities) (some (Value.strs ["video", "audio"])) := by
  unfold applyDefaults Dict.hasKey
  cases hs : Dict.get d Key.status <;> cases hc : Dict.get d Key.capabilities <;>
    simp [hs, hc, optOr, Dict.get_set_self,
      Dict.get_set_ne _ _ (show Key.capabilities ≠ Key.status by decide),
      Dict.get_set_ne _ _ (show Key.status ≠ Key.capabilities by decide)]

/-! ## Which keys each vendor parser can produce -/

theorem parse_cisco_details_get_none (b : Body) {k : Key}
    (h1 : k ≠ Key.manufacturer) (h2 : k ≠ Key.model) (h3 : k ≠ Key.sw_version)
    (h4 : k ≠ Key.serial) (h5 : k ≠ Key.mac_address) :
    Dict.get (parse_cisco_details b) k = none := by
  have h1s : ¬(Key.manufacturer = k) := fun hh => h1 hh.symm
  unfold parse_cisco_details
  simp only [apply_ite (fun d => Dict.get d k), setIfSomeV_get_ne _ _ _ h2,
    setIfSomeStr_get_ne _ _ _ h3, setIfSomeStr_get_ne _ _ _ h4,
    setIfSomeStr_get_ne _ _ _ h5, ite_self]
  simp [Dict.get, h1s]

theorem parse_polycom_details_get_none (b : Body) {k : Key}
    (h1 : k ≠ Key.manufacturer) (h2 : k ≠ Key.model) (h3 : k ≠ Key.sw_version)
    (h4 : k ≠ Key.system_name) :
    Dict.get (parse_polycom_details b) k = none := by
  have h1s : ¬(Key.manufacturer = k) := fun hh => h1 hh.symm
  unfold parse_polycom_details
  simp only [setIfSomeStr_get_ne _ _ _ h2, setIfSomeStr_get_ne _ _ _ h3,
    setIfSomeStr_get_ne _ _ _ h4]
  simp [Dict.get, h1s]

theorem parse_tandberg_details_get_none (b : Body) {k : Key}
    (h1 : k ≠ Key.manufacturer) (h2 : k ≠ Key.model) (h3 : k ≠ Key.sw_version)
    (h4 : k ≠ Key.product_id) :
    Dict.get (parse_tandberg_details b) k = none := by
  have h1s : ¬(Key.manufacturer = k) := fun hh => h1 hh.symm
  unfold parse_tandberg_details
  simp only [setIfSomeStr_get_ne _ _ _ h2, setIfSomeStr_get_ne _ _ _ h3,
    setIfSomeStr_get_ne _ _ _ h4]
  simp [Dict.get, h1s]

theorem genericFromTitle_get_none (title0 : String) {k : Key}
    (h1 : k ≠ Key.manufacturer) (h2 : k ≠ Key.model) :
    Dict.get (genericFromTitle title0) k = none := by
  have h1s : ¬(Key.manufacturer = k) := fun hh => h1 hh.symm
  have h2s : ¬(Key.model = k) := fun hh => h2 hh.symm
  unfold genericFromTitle
  cases hF : genericManufacturers.find? (fun m => containsSub (pyLower (pyTrim title0)) m) with
  | none => simp only [hF]; simp [Dict.get]
  | some m =>
    simp only [hF]
    simp [apply_ite (fun d => Dict.get d k), Dict.get_set_ne _ _ h1,
      Dict.get_set_ne _ _ h2, Dict.get, ite_self, h1s, h2s]

theorem parse_generic_details_get_none (b : Body) {k : Key}
    (h1 : k ≠ Key.manufacturer) (h2 : k ≠ Key.model) (h3 : k ≠ Key.sw_version) :
    Dict.get (parse_generic_details b) k = none := by
  have h3s : ¬(Key.sw_version = k) := fun hh => h3 hh.symm
  unfold parse_generic_details
  repeat' split
  all_goals
    simp [Dict.get, Dict.get_set_ne _ _ h3, genericFromTitle_get_none _ h1 h2, h3s]

/-! ## Which keys the Cisco XML API can produce -/

theorem statusFields_fst (root : Xml) :
    (statusFields root).map Prod.fst =
      [Key.model, Key.sw_version, Key.serial, Key.mac_address, Key.product_type,
       Key.ip_address, Key.subnet_mask, Key.gateway, Key.sip_status, Key.sip_uri,
       Key.system_time, Key.cameras] := rfl

theorem configFields_fst (root : Xml) :
    (configFields root).map Prod.fst =
      [Key.system_name, Key.sip_uri, Key.contact_info] := rfl

theorem parseStatusXml_get_preserve (root : Xml) (d : Dict) {k : Key}
    (h : k ∉ [Key.model, Key.sw_version, Key.serial, Key.mac_address,
      Key.product_type, Key.ip_address, Key.subnet_mask, Key.gateway,
      Key.sip_status, Key.sip_uri, Key.system_time, Key.cameras]) :
    Dict.get (parseStatusXml root d) k = Dict.get d k :=
  applyFields_get_not_mem _ _ _ (by rw [statusFields_fst]; exact h)

theorem parseConfigXml_get_preserve (root : Xml) (d : Dict) {k : Key}
    (h : k ∉ [Key.system_name, Key.sip_uri, Key.contact_info]) :
    Dict.get (parseConfigXml root d) k = Dict.get d k :=
  applyFields_get_not_mem _ _ _ (by rw [configFields_fst]; exact h)

theorem xmlFileStep_get_preserve (o : Option Xml) (parse : Xml → Dict → Dict)
    (d : Dict) (k : Key)
    (hp : ∀ root d2, Dict.get (parse root d2) k = Dict.get d2 k) :
    Dict.get (xmlFileStep o parse d) k = Dict.get d k := by
  cases o <;> simp [xmlFileStep, hp]

theorem xmlFileStep_nodup (o : Option Xml) (parse : Xml → Dict → Dict) (d : Dict)
    (hp : ∀ root d2, (Dict.keys d2).Nodup → (Dict.keys (parse root d2)).Nodup)
    (h : (Dict.keys d).Nodup) : (Dict.keys (xmlFileStep o parse d)).Nodup := by
  cases o with
  | none => exact h
  | some root => exact hp root d h

theorem ciscoXmlDetailsFrom_get_preserve (env : Env) (u p : String) (e : Dict)
    (ip : String) {k : Key}
    (hs : k ∉ [Key.model, Key.sw_version, Key.serial, Key.mac_address,
      Key.product_type, Key.ip_address, Key.subnet_mask, Key.gateway,
      Key.sip_status, Key.sip_uri, Key.system_time, Key.cameras])
    (hc : k ∉ [Key.system_name, Key.sip_uri, Key.contact_info]) :
    Dict.get (ciscoXmlDetailsFrom env u p e ip) k =
      Dict.get [(Key.manufacturer, Value.str "Cisco")] k := by
  unfold ciscoXmlDetailsFrom
  rw [xmlFileStep_get_preserve _ _ _ _ (fun root d2 => parseConfigXml_get_preserve root d2 hc),
    xmlFileStep_get_preserve _ _ _ _ (fun root d2 => parseStatusXml_get_preserve root d2 hs)]

theorem ciscoXmlDetailsFrom_get_manufacturer (env : Env) (u p : String)
    (e : Dict) (ip : String) :
    Dict.get (ciscoXmlDetailsFrom env u p e ip) Key.manufacturer =
      some (Value.str "Cisco") := by
  rw [ciscoXmlDetailsFrom_get_preserve env u p e ip (by decide) (by decide)]
  rfl

theorem ciscoXmlDetailsFrom_nodup (env : Env) (u p : String) (e : Dict)
    (ip : String) : (Dict.keys (ciscoXmlDetailsFrom env u p e ip)).Nodup := by
  unfold ciscoXmlDetailsFrom
  refine xmlFileStep_nodup _ _ _ (fun root d2 h => ?_)
    (xmlFileStep_nodup _ _ _ (fun root d2 h => ?_) (by simp [Dict.keys]))
  · unfold parseConfigXml
    exact applyFields_nodup _ _ h
  · unfold parseStatusXml
    exact applyFields_nodup _ _ h

/-- Inversion of a successful Cisco XML API call: the returned dict is the
accumulated details, nonempty beyond the manufacturer seed. -/
theorem access_cisco_xml_api_ok_some {env : Env} {u p : String} {e : Dict}
    {d : Dict} (h : access_cisco_xml_api env u p e = Except.ok (some d)) :
    ∃ ip, Dict.get e Key.ip = some (Value.str ip)
      ∧ d = ciscoXmlDetailsFrom env u p e ip ∧ 1 < d.length := by
  unfold access_cisco_xml_api at h
  cases hip : Dict.get e Key.ip <;> rw [hip] at h
  case none => simp at h
  case some v =>
    cases v with
    | str ip =>
      replace h : Except.ok (ε := Unit)
          (if (ciscoXmlDetailsFrom env u p e ip).length ≤ 1 then none
           else some (ciscoXmlDetailsFrom env u p e ip)) = Except.ok (some d) := h
      by_cases hlen : (ciscoXmlDetailsFrom env u p e ip).length ≤ 1
      · rw [if_pos hlen] at h
        simp at h
      · rw [if_neg hlen] at h
        simp only [Except.ok.injEq, Option.some.injEq] at h
        cases h
        exact ⟨ip, rfl, rfl, by omega⟩
    | pyNone => simp at h
    | ports l => simp at h
    | strs l => simp at h
    | cams l => simp at h

/-! ## Keys the extractor pipeline leaves untouched -/

theorem sniffManufacturer_get_ne (b : Body) (d : Dict) {k : Key}
    (h : k ≠ Key.manufacturer) :
    Dict.get (sniffManufacturer b d) k = Dict.get d k := by
  unfold sniffManufacturer
  simp only [apply_ite (fun d2 => Dict.get d2 k), Dict.get_set_ne _ _ h, ite_self]

theorem dispatchParse_get_preserve (b : Body) (d : Dict) {k : Key}
    (h : k ∉ [Key.manufacturer, Key.model, Key.sw_version, Key.serial,
      Key.mac_address, Key.system_name, Key.product_id]) :
    Dict.get (dispatchParse b d) k = Dict.get d k := by
  simp only [List.mem_cons, List.not_mem_nil, or_false] at h
  push_neg at h
  obtain ⟨h1, h2, h3, h4, h5, h6, h7⟩ := h
  unfold dispatchParse
  simp only [apply_ite (fun d2 => Dict.get d2 k),
    Dict.get_update_of_none _ (parse_cisco_details_get_none b h1 h2 h3 h4 h5),
    Dict.get_update_of_none _ (parse_tandberg_details_get_none b h1 h2 h3 h7),
    Dict.get_update_of_none _ (parse_polycom_details_get_none b h1 h2 h3 h6),
    Dict.get_update_of_none _ (parse_generic_details_get_none b h1 h2 h3),
    ite_self]

theorem htmlPhase_get_preserve (env : Env) (u p ip : String) (d : Dict) {k : Key}
    (h : k ∉ [Key.manufacturer, Key.model, Key.sw_version, Key.serial,
      Key.mac_address, Key.system_name, Key.product_id]) :
    Dict.get (htmlPhase env u p ip d) k = Dict.get d k := by
  have hm : k ≠ Key.manufacturer := by
    intro hh
    exact h (by simp [hh])
  unfold htmlPhase
  cases hb : fetchHtml env ip u p with
  | none => simp only [hb]
  | some b =>
    simp only [hb]
    rw [dispatchParse_get_preserve _ _ h, sniffManufacturer_get_ne _ _ hm]

theorem xmlPhase_get_preserve (env : Env) (u p : String) (e d : Dict) {k : Key}
    (hS : k ∉ [Key.model, Key.sw_version, Key.serial, Key.mac_address,
      Key.product_type, Key.ip_address, Key.subnet_mask, Key.gateway,
      Key.sip_status, Key.sip_uri, Key.system_time, Key.cameras])
    (hC : k ∉ [Key.system_name, Key.sip_uri, Key.contact_info])
    (hm : k ≠ Key.manufacturer) :
    Dict.get (xmlPhase env u p e d) k = Dict.get d k := by
  have hms : ¬(Key.manufacturer = k) := fun hh => hm hh.symm
  unfold xmlPhase
  by_cases htry : Dict.get d Key.manufacturer = some (Value.str "Cisco")
      ∨ (Dict.get d Key.manufacturer = some (Value.str "Unknown") ∧ 443 ∈ portsOf e)
  · rw [if_pos htry]
    cases ha : access_cisco_xml_api env u p e with
    | error err => simp only [ha]
    | ok o =>
      cases o with
      | none => simp only [ha]
      | some xml =>
        simp only [ha]
        obtain ⟨ip, hip, hxml, hlen⟩ := access_cisco_xml_api_ok_some ha
        rw [Dict.get_update_of_none]
        rw [hxml, ciscoXmlDetailsFrom_get_preserve _ _ _ _ _ hS hC]
        simp [Dict.get, hms]
  · rw [if_neg htry]

theorem namePhase_get_ne (d : Dict) {k : Key} (h : k ≠ Key.name) :
    Dict.get (namePhase d) k = Dict.get d k := by
  unfold namePhase
  simp only [apply_ite (fun d2 => Dict.get d2 k), Dict.get_set_ne _ _ h, ite_self]

/-- The keys neither the vendor parsers nor the XML API nor the name step
touch: get through the whole video-endpoint pipeline is preserved. -/
theorem pipeline_get_preserve (env : Env) (u p : String) (e : Dict) (ip : String)
    (d : Dict) {k : Key}
    (h : k ∈ [Key.ip, Key.hostname, Key.type, Key.open_ports, Key.uri,
      Key.status, Key.capabilities]) :
    Dict.get (namePhase (xmlPhase env u p e (htmlPhase env u p ip d))) k =
      Dict.get d k := by
  fin_cases h <;>
    rw [namePhase_get_ne _ (by decide),
      xmlPhase_get_preserve _ _ _ _ _ (by decide) (by decide) (by decide),
      htmlPhase_get_preserve _ _ _ _ _ (by decide)]

/-! ## Inversion of the extractor -/

theorem extract_ok_inv {env : Env} {u p : Option String} {e d : Dict}
    (h : extract_endpoint_details env u p e = Except.ok d) :
    ∃ ip tv, Dict.get e Key.ip = some (Value.str ip)
      ∧ Dict.get e Key.type = some tv
      ∧ ((tv ≠ Value.str "video_endpoint"
            ∧ d = defaultDetails ip ((Dict.get e Key.hostname).getD (Value.str ip)) tv)
        ∨ (tv = Value.str "video_endpoint"
            ∧ d = namePhase (xmlPhase env (credsOf u p).1 (credsOf u p).2 e
                (htmlPhase env (credsOf u p).1 (credsOf u p).2 ip
                  (defaultDetails ip ((Dict.get e Key.hostname).getD (Value.str ip))
                    (Value.str "video_endpoint")))))) := by
  unfold extract_endpoint_details at h
  cases hip : Dict.get e Key.ip <;> rw [hip] at h
  case none => simp at h
  case some v =>
    cases v with
    | str ip =>
      cases htv : Dict.get e Key.type <;> rw [htv] at h
      case none => simp at h
      case some tv =>
        replace h : (if tv ≠ Value.str "video_endpoint" then
              Except.ok (ε := Unit) (defaultDetails ip
                ((Dict.get e Key.hostname).getD (Value.str ip)) tv)
            else
              Except.ok (namePhase (xmlPhase env (credsOf u p).1 (credsOf u p).2 e
                (htmlPhase env (credsOf u p).1 (credsOf u p).2 ip
                  (defaultDetails ip ((Dict.get e Key.hostname).getD (Value.str ip))
                    tv))))) = Except.ok d := h
        by_cases hvid : tv = Value.str "video_endpoint"
        · rw [if_neg (by simpa using hvid)] at h
          simp only [Except.ok.injEq] at h
          subst hvid
          exact ⟨ip, _, rfl, rfl, Or.inr ⟨rfl, h.symm⟩⟩
        · rw [if_pos hvid] at h
          simp only [Except.ok.injEq] at h
          exact ⟨ip, tv, rfl, rfl, Or.inl ⟨hvid, h.symm⟩⟩
    | pyNone => simp at h
    | ports l => simp at h
    | strs l => simp at h
    | cams l => simp at h

/-! ## Corollaries of the extractor inversion -/

theorem extract_ok_get_ip {env : Env} {u p : Option String} {e d : Dict}
    (h : extract_endpoint_details env u p e = Except.ok d) :
    Dict.get d Key.ip = Dict.get e Key.ip := by
  obtain ⟨ip, tv, hip, htv, hc⟩ := extract_ok_inv h
  rcases hc with ⟨_, rfl⟩ | ⟨_, rfl⟩
  · rw [hip]
    rfl
  · rw [pipeline_get_preserve _ _ _ _ _ _ (by decide), hip]
    rfl

theorem extract_ok_get_uri {env : Env} {u p : Option String} {e d : Dict}
    (h : extract_endpoint_details env u p e = Except.ok d) :
    ∃ ip, Dict.get e Key.ip = some (Value.str ip)
      ∧ Dict.get d Key.uri = some (Value.str ("https://" ++ ip)) := by
  obtain ⟨ip, tv, hip, htv, hc⟩ := extract_ok_inv h
  rcases hc with ⟨_, rfl⟩ | ⟨_, rfl⟩
  · exact ⟨ip, hip, rfl⟩
  · refine ⟨ip, hip, ?_⟩
    rw [pipeline_get_preserve _ _ _ _ _ _ (by decide)]
    rfl

/-! ## The worker contribution per queue item -/

theorem workerStep_single (env : Env) (u p : String) (e : Dict)
    (h : ∃ s, Dict.get e Key.ip = some (Value.str s)) :
    ∃ r, workerStep env u p e = [r] ∧ Dict.get r Key.ip = Dict.get e Key.ip := by
  obtain ⟨s, hs⟩ := h
  cases hext : extract_endpoint_details env (some u) (some p) e with
  | error err =>
    refine ⟨e, ?_, rfl⟩
    unfold workerStep
    simp [hext, hs]
  | ok d =>
    refine ⟨applyDefaults (backfillKeys e d), by unfold workerStep; simp [hext], ?_⟩
    rw [applyDefaults_get_ne _ (by decide) (by decide)]
    unfold backfillKeys
    rw [backfill_foldl_get]
    rw [if_pos (by decide : Key.ip ∈ preservedKeys)]
    rw [extract_ok_get_ip hext, hs]
    rfl

theorem flatMap_workerStep_spec (env : Env) (u p : String) :
    ∀ L : List Dict,
      (∀ e2 ∈ L, ∃ s, Dict.get e2 Key.ip = some (Value.str s)) →
      (L.flatMap (workerStep env u p)).length = L.length
      ∧ (L.flatMap (workerStep env u p)).map (fun d2 => Dict.get d2 Key.ip)
          = L.map (fun e2 => Dict.get e2 Key.ip) := by
  intro L
  induction L with
  | nil => intro _; simp
  | cons e2 L ih =>
    intro hL
    obtain ⟨r, hr, hrip⟩ := workerStep_single env u p e2 (hL e2 (by simp))
    obtain ⟨ih1, ih2⟩ := ih (fun x hx => hL x (by simp [hx]))
    constructor
    · simp [List.flatMap_cons, hr, ih1]
    · simp [List.flatMap_cons, hr, ih2, hrip]

/-! ## Scan lemmas -/

theorem scan_ip_none_iff (env : Env) (ip : String) (ports : List Nat)
    (force : Bool) (u p : String) :
    scan_ip env ip ports force u p = none ↔ ports.filter (env ip).connect = [] := by
  unfold scan_ip
  by_cases hemp : (ports.filter (env ip).connect).isEmpty = true
  · rw [if_pos hemp]
    rw [List.isEmpty_iff] at hemp
    simp [hemp]
  · rw [if_neg hemp]
    rw [List.isEmpty_iff] at hemp
    simp [hemp]

theorem scan_ip_some_ip {env : Env} {ip : String} {ports : List Nat}
    {force : Bool} {u p : String} {d : Dict}
    (h : scan_ip env ip ports force u p = some d) :
    Dict.get d Key.ip = some (Value.str ip) := by
  unfold scan_ip at h
  by_cases hemp : (ports.filter (env ip).connect).isEmpty = true
  · rw [if_pos hemp] at h
    simp at h
  · rw [if_neg hemp] at h
    simp only [Option.some.injEq] at h
    rw [← h]
    rfl

theorem scan_ip_congr {env env2 : Env} {h2 : String} (henv : env h2 = env2 h2)
    (ports : List Nat) (force : Bool) (u p : String) :
    scan_ip env h2 ports force u p = scan_ip env2 h2 ports force u p := by
  unfold scan_ip
  rw [henv]

/-! # The claims -/

/-- Claim C10: for every endpoint whose type is present and differs from
video_endpoint, extract_endpoint_details returns exactly the default
record (manufacturer, model and sw_version Unknown, uri https of the ip,
name built from the ip, and ip, hostname and type taken from the input,
the hostname falling back to the ip when absent) for every network
environment, so no HTTP fetch or vendor parsing can influence it. -/
theorem claim_C10_non_video_default (env : Env) (u p : Option String)
    (e : Dict) (ip : String) (tv : Value)
    (hip : Dict.get e Key.ip = some (Value.str ip))
    (htv : Dict.get e Key.type = some tv)
    (hne : tv ≠ Value.str "video_endpoint") :
    extract_endpoint_details env u p e =
      Except.ok (defaultDetails ip ((Dict.get e Key.hostname).getD (Value.str ip)) tv) := by
  unfold extract_endpoint_details
  simp only [hip, htv]
  rw [if_pos hne]

theorem claim_C10_witness :
    Dict.get ex7 Key.ip = some (Value.str "10.0.0.5")
    ∧ Dict.get ex7 Key.type = some (Value.str "unknown")
    ∧ Value.str "unknown" ≠ Value.str "video_endpoint"
    ∧ extract_endpoint_details envSip none none ex7 =
        Except.ok (defaultDetails "10.0.0.5"
          ((Dict.get ex7 Key.hostname).getD (Value.str "10.0.0.5"))
          (Value.str "unknown")) :=
  ⟨rfl, rfl, by decide,
    claim_C10_non_video_default envSip none none ex7 "10.0.0.5"
      (Value.str "unknown") rfl rfl (by decide)⟩

/-- Claim C4: when extract_endpoint_details raises for an endpoint (that
carries an ip), the worker catches the exception and appends the original
pre-extraction record to the shared results, so the endpoint is not
dropped. -/
theorem claim_C4_failure_isolation (env : Env) (u p : String) (e : Dict)
    (err : Unit)
    (hip : (Dict.get e Key.ip).isSome = true)
    (herr : extract_endpoint_details env (some u) (some p) e = Except.error err) :
    workerStep env u p e = [e] := by
  unfold workerStep
  simp only [herr]
  rw [if_pos hip]

theorem claim_C4_witness :
    (Dict.get ep4 Key.ip).isSome = true
    ∧ extract_endpoint_details envDead (some "admin") (some "TANDBERG") ep4 =
        Except.error ()
    ∧ workerStep envDead "admin" "TANDBERG" ep4 = [ep4] :=
  ⟨rfl, rfl, claim_C4_failure_isolation envDead "admin" "TANDBERG" ep4 () rfl rfl⟩

/-- Claim C5: for an endpoint the worker processed successfully, each of
name, hostname, ip, open_ports and type is the extractor value when the
extractor produced one and is otherwise backfilled from the original
endpoint (so a known field is never regressed to absent), and after the
merge status defaults to online and capabilities to video+audio when
absent. -/
theorem claim_C5_worker_merge (env : Env) (u p : String) (e d : Dict)
    (hok : extract_endpoint_details env (some u) (some p) e = Except.ok d) :
    workerStep env u p e = [applyDefaults (backfillKeys e d)]
    ∧ (∀ k ∈ preservedKeys,
        Dict.get (applyDefaults (backfillKeys e d)) k
          = optOr (Dict.get d k) (Dict.get e k))
    ∧ Dict.get (applyDefaults (backfillKeys e d)) Key.status
        = optOr (Dict.get d Key.status) (some (Value.str "online"))
    ∧ Dict.get (applyDefaults (backfillKeys e d)) Key.capabilities
        = optOr (Dict.get d Key.capabilities) (some (Value.strs ["video", "audio"])) := by
  refine ⟨?_, ?_, ?_, ?_⟩
  · unfold workerStep
    simp only [hok]
  · intro k hk
    fin_cases hk <;>
      · rw [applyDefaults_get_ne _ (by decide) (by decide)]
        unfold backfillKeys
        rw [backfill_foldl_get]
        rw [if_pos (by decide)]
  · rw [applyDefaults_get_status]
    unfold backfillKeys
    rw [backfill_foldl_get]
    rw [if_neg (by decide)]
  · rw [applyDefaults_get_capabilities]
    unfold backfillKeys
    rw [backfill_foldl_get]
    rw [if_neg (by decide)]

theorem claim_C5_witness :
    extract_endpoint_details envDead (some "admin") (some "TANDBERG") ex7 =
      Except.ok d7
    ∧ (workerStep envDead "admin" "TANDBERG" ex7 = [applyDefaults (backfillKeys ex7 d7)]
      ∧ (∀ k ∈ preservedKeys,
          Dict.get (applyDefaults (backfillKeys ex7 d7)) k
            = optOr (Dict.get d7 k) (Dict.get ex7 k))
      ∧ Dict.get (applyDefaults (backfillKeys ex7 d7)) Key.status
          = optOr (Dict.get d7 Key.status) (some (Value.str "online"))
      ∧ Dict.get (applyDefaults (backfillKeys ex7 d7)) Key.capabilities
          = optOr (Dict.get d7 Key.capabilities)
              (some (Value.strs ["video", "audio"]))) :=
  ⟨rfl, claim_C5_worker_merge envDead "admin" "TANDBERG" ex7 d7 rfl⟩

/-- Claim C8: the fixture status.xml document with ProductId Cisco Webex
Room Kit, Software/Version 10.11.2.3, Hardware/SerialNumber FTT234500AB
and Hardware/MACAddress 00:11:22:33:44:55 parses to exactly manufacturer
Cisco, model Webex Room Kit (the Cisco prefix stripped), sw_version
10.11.2.3, serial FTT234500AB and mac_address 00:11:22:33:44:55. -/
theorem claim_C8_status_roundtrip :
    access_cisco_xml_api env8 "admin" "TANDBERG" e8 =
      Except.ok (some
        [ (Key.manufacturer, Value.str "Cisco"),
          (Key.model, Value.str "Webex Room Kit"),
          (Key.sw_version, Value.str "10.11.2.3"),
          (Key.serial, Value.str "FTT234500AB"),
          (Key.mac_address, Value.str "00:11:22:33:44:55") ]) := by
  rfl

/-- Claim C6 counterexample: for the endpoint with ip 10.0.0.5 and open
ports exactly 80, get_endpoint_uri derives http as the claim says, but the
record extract_endpoint_details returns carries uri https of the ip: the
extractor does not follow the port-based derivation. -/
theorem claim_C6_counterexample :
    get_endpoint_uri ex6 = some "http://10.0.0.5"
    ∧ extract_endpoint_details envDead none none ex6 =
        Except.ok (defaultDetails "10.0.0.5" (Value.str "10.0.0.5") (Value.str "unknown"))
    ∧ Dict.get (defaultDetails "10.0.0.5" (Value.str "10.0.0.5") (Value.str "unknown"))
        Key.uri = some (Value.str "https://10.0.0.5")
    ∧ ("https://10.0.0.5" : String) ≠ "http://10.0.0.5" := by
  refine ⟨rfl, rfl, rfl, ?_⟩
  decide

/-- Claim C6 (amended): get_endpoint_uri derives the access scheme from
the open ports (https when 443 is open, else http when 80 is open, else
http as the default); but the record extract_endpoint_details returns
always carries https of the ip as its uri whatever the ports (and its
step-1 GET likewise always targets https of the ip). -/
theorem claim_C6_uri_derivation :
    (∀ e ip ports, Dict.get e Key.ip = some (Value.str ip) →
      Dict.get e Key.open_ports = some (Value.ports ports) →
      get_endpoint_uri e =
        some (if 443 ∈ ports then "https://" ++ ip
          else if 80 ∈ ports then "http://" ++ ip
          else "http://" ++ ip))
    ∧ (∀ env u p e d, extract_endpoint_details env u p e = Except.ok d →
        ∃ ip, Dict.get e Key.ip = some (Value.str ip)
          ∧ Dict.get d Key.uri = some (Value.str ("https://" ++ ip))) := by
  constructor
  · intro e ip ports hip hports
    unfold get_endpoint_uri portsOf
    simp only [hip, hports]
    by_cases h443 : 443 ∈ ports
    · simp [h443]
    · by_cases h80 : 80 ∈ ports <;> simp [h443, h80]
  · intro env u p e d hok
    exact extract_ok_get_uri hok

theorem claim_C6_witness :
    get_endpoint_uri ex6 =
      some (if 443 ∈ [80] then "https://" ++ "10.0.0.5"
        else if 80 ∈ [80] then "http://" ++ "10.0.0.5"
        else "http://" ++ "10.0.0.5")
    ∧ (∃ ip, Dict.get ex6 Key.ip = some (Value.str ip)
        ∧ Dict.get (defaultDetails "10.0.0.5" (Value.str "10.0.0.5")
            (Value.str "unknown")) Key.uri
          = some (Value.str ("https://" ++ ip))) :=
  ⟨claim_C6_uri_derivation.1 ex6 "10.0.0.5" [80] rfl rfl,
   claim_C6_uri_derivation.2 envDead none none ex6
     (defaultDetails "10.0.0.5" (Value.str "10.0.0.5") (Value.str "unknown")) rfl⟩

/-- Claim C7 counterexample: for an endpoint whose hostname resolved to
room1.example.com while its ip is 10.0.0.5, the unresolved-manufacturer
record keeps the name Device at 10.0.0.5 built from the ip, not the
claimed Device at hostname. -/
theorem claim_C7_counterexample :
    extract_endpoint_details envDead none none ex7 = Except.ok d7
    ∧ Dict.get d7 Key.manufacturer = some (Value.str "Unknown")
    ∧ Dict.get d7 Key.model = some (Value.str "Unknown")
    ∧ Dict.get d7 Key.hostname = some (Value.str "room1.example.com")
    ∧ Dict.get d7 Key.name = some (Value.str "Device at 10.0.0.5")
    ∧ ("Device at 10.0.0.5" : String) ≠ "Device at room1.example.com" := by
  refine ⟨rfl, rfl, rfl, rfl, rfl, ?_⟩
  decide

/-- Claim C7 (amended): the record extract_endpoint_details returns has
name manufacturer-space-model-at-hostname when both manufacturer and model
resolved beyond Unknown, and otherwise keeps the initial name Device at ip
(built from the ip, not the hostname). -/
theorem claim_C7_name_rule (env : Env) (u p : Option String) (e d : Dict)
    (hok : extract_endpoint_details env u p e = Except.ok d) :
    (Dict.get d Key.manufacturer ≠ some (Value.str "Unknown")
        ∧ Dict.get d Key.model ≠ some (Value.str "Unknown") →
      Dict.get d Key.name = some (Value.str
        (pyStrOpt (Dict.get d Key.manufacturer) ++ " "
          ++ pyStrOpt (Dict.get d Key.model) ++ " at "
          ++ pyStrOpt (Dict.get d Key.hostname))))
    ∧ (¬(Dict.get d Key.manufacturer ≠ some (Value.str "Unknown")
          ∧ Dict.get d Key.model ≠ some (Value.str "Unknown")) →
      ∃ ip, Dict.get e Key.ip = some (Value.str ip)
        ∧ Dict.get d Key.name = some (Value.str ("Device at " ++ ip))) := by
  obtain ⟨ip, tv, hip, htv, hc⟩ := extract_ok_inv hok
  rcases hc with ⟨hne, rfl⟩ | ⟨hvid, hd⟩
  · refine ⟨fun hcond => absurd ?_ hcond.1, fun _ => ⟨ip, hip, ?_⟩⟩
    · rfl
    · rfl
  · set d2 := xmlPhase env (credsOf u p).1 (credsOf u p).2 e
      (htmlPhase env (credsOf u p).1 (credsOf u p).2 ip
        (defaultDetails ip ((Dict.get e Key.hostname).getD (Value.str ip))
          (Value.str "video_endpoint"))) with hd2
    have hname2 : Dict.get d2 Key.name = some (Value.str ("Device at " ++ ip)) := by
      rw [hd2]
      rw [xmlPhase_get_preserve _ _ _ _ _ (by decide) (by decide) (by decide)]
      rw [htmlPhase_get_preserve _ _ _ _ _ (by decide)]
      rfl
    by_cases hcond2 : Dict.get d2 Key.manufacturer ≠ some (Value.str "Unknown")
        ∧ Dict.get d2 Key.model ≠ some (Value.str "Unknown")
    · have hdval : d = Dict.set d2 Key.name
          (Value.str (pyStrOpt (Dict.get d2 Key.manufacturer) ++ " "
            ++ pyStrOpt (Dict.get d2 Key.model) ++ " at "
            ++ pyStrOpt (Dict.get d2 Key.hostname))) := by
        rw [hd]
        unfold namePhase
        rw [if_pos hcond2]
      have hmanu : Dict.get d Key.manufacturer = Dict.get d2 Key.manufacturer := by
        rw [hdval, Dict.get_set_ne _ _ (by decide)]
      have hmodel : Dict.get d Key.model = Dict.get d2 Key.model := by
        rw [hdval, Dict.get_set_ne _ _ (by decide)]
      have hhost : Dict.get d Key.hostname = Dict.get d2 Key.hostname := by
        rw [hdval, Dict.get_set_ne _ _ (by decide)]
      refine ⟨fun _ => ?_, fun hnot => absurd ?_ hnot⟩
      · rw [hmanu, hmodel, hhost, hdval, Dict.get_set_self]
      · rw [hmanu, hmodel]
        exact hcond2
    · have hdval : d = d2 := by
        rw [hd]
        unfold namePhase
        rw [if_neg hcond2]
      subst hdval
      exact ⟨fun hcond => absurd hcond hcond2, fun _ => ⟨ip, hip, hname2⟩⟩

theorem claim_C7_witness :
    (Dict.get d7 Key.manufacturer ≠ some (Value.str "Unknown")
        ∧ Dict.get d7 Key.model ≠ some (Value.str "Unknown") →
      Dict.get d7 Key.name = some (Value.str
        (pyStrOpt (Dict.get d7 Key.manufacturer) ++ " "
          ++ pyStrOpt (Dict.get d7 Key.model) ++ " at "
          ++ pyStrOpt (Dict.get d7 Key.hostname))))
    ∧ (¬(Dict.get d7 Key.manufacturer ≠ some (Value.str "Unknown")
          ∧ Dict.get d7 Key.model ≠ some (Value.str "Unknown")) →
      ∃ ip, Dict.get ex7 Key.ip = some (Value.str ip)
        ∧ Dict.get d7 Key.name = some (Value.str ("Device at " ++ ip))) :=
  claim_C7_name_rule envDead none none ex7 d7 rfl

/-- A record of length at most one containing a given entry is exactly the
singleton of that entry. -/
theorem Dict.eq_singleton_of_mem_of_length {d : Dict} {x : Key × Value}
    (hm : x ∈ d) (hl : d.length ≤ 1) : d = [x] := by
  match d, hm, hl with
  | [y], hm, _ =>
    rw [List.mem_singleton] at hm
    rw [hm]
  | _ :: _ :: _, _, hl => simp at hl

/-- Claim C9: access_cisco_xml_api never raises for an endpoint with an
ip; it returns None exactly when the accumulated details populated nothing
beyond the seeded manufacturer (for example when both documents are
absent, non-200 or unparseable), and any returned dict carries
manufacturer Cisco plus at least one further field. -/
theorem claim_C9_informative (env : Env) (u p : String) (e : Dict) (ip : String)
    (hip : Dict.get e Key.ip = some (Value.str ip)) :
    ∃ r, access_cisco_xml_api env u p e = Except.ok r
      ∧ (r = none ↔ ∀ k, k ≠ Key.manufacturer →
          Dict.get (ciscoXmlDetailsFrom env u p e ip) k = none)
      ∧ (∀ d, r = some d →
          Dict.get d Key.manufacturer = some (Value.str "Cisco")
          ∧ ∃ k v, k ≠ Key.manufacturer ∧ Dict.get d k = some v) := by
  have hmanu := ciscoXmlDetailsFrom_get_manufacturer env u p e ip
  have hnd := ciscoXmlDetailsFrom_nodup env u p e ip
  have haccess : access_cisco_xml_api env u p e =
      Except.ok (if (ciscoXmlDetailsFrom env u p e ip).length ≤ 1 then none
        else some (ciscoXmlDetailsFrom env u p e ip)) := by
    unfold access_cisco_xml_api
    simp only [hip]
  refine ⟨_, haccess, ⟨fun hnone k hk => ?_, fun hall => ?_⟩, fun d hd => ?_⟩
  · by_cases hlen : (ciscoXmlDetailsFrom env u p e ip).length ≤ 1
    · have hsing := Dict.eq_singleton_of_mem_of_length
        (Dict.mem_of_get_eq_some hmanu) hlen
      have hks : ¬(Key.manufacturer = k) := fun hh => hk hh.symm
      rw [hsing]
      simp [Dict.get, hks]
    · rw [if_neg hlen] at hnone
      simp at hnone
  · have hconst : ∀ kv ∈ ciscoXmlDetailsFrom env u p e ip, kv.1 = Key.manufacturer := by
      intro kv hkv
      by_contra hne
      have hs := Dict.get_isSome_of_mem hkv
      rw [hall kv.1 hne] at hs
      simp at hs
    rw [if_pos (Dict.length_le_one_of_keys_const hnd hconst)]
  · by_cases hlen : (ciscoXmlDetailsFrom env u p e ip).length ≤ 1
    · rw [if_pos hlen] at hd
      simp at hd
    · rw [if_neg hlen] at hd
      simp only [Option.some.injEq] at hd
      subst hd
      have hex : ∃ kv ∈ ciscoXmlDetailsFrom env u p e ip,
          kv.1 ≠ Key.manufacturer := by
        by_contra hno
        push_neg at hno
        exact hlen (Dict.length_le_one_of_keys_const hnd hno)
      obtain ⟨kv, hkvmem, hkvne⟩ := hex
      obtain ⟨v, hv⟩ := Option.isSome_iff_exists.1 (Dict.get_isSome_of_mem hkvmem)
      exact ⟨hmanu, kv.1, v, hkvne, hv⟩

theorem claim_C9_witness :
    ∃ r, access_cisco_xml_api envDead "admin" "TANDBERG" e8 = Except.ok r
      ∧ (r = none ↔ ∀ k, k ≠ Key.manufacturer →
          Dict.get (ciscoXmlDetailsFrom envDead "admin" "TANDBERG" e8 "10.0.0.9") k = none)
      ∧ (∀ d, r = some d →
          Dict.get d Key.manufacturer = some (Value.str "Cisco")
          ∧ ∃ k v, k ≠ Key.manufacturer ∧ Dict.get d k = some v) :=
  claim_C9_informative envDead "admin" "TANDBERG" e8 "10.0.0.9" rfl

/-- Claim C1: with at least one worker, classify_endpoints processes every
queued endpoint exactly once, so every possible result list has exactly
one record per input endpoint and carries each input ip exactly as often
as the input does, whatever the worker count and scheduling order. -/
theorem claim_C1_classify_preserves (env : Env) (u p : String) (n : Nat)
    (endpoints out : List Dict) (hn : 1 ≤ n)
    (hips : ∀ e2 ∈ endpoints, ∃ s, Dict.get e2 Key.ip = some (Value.str s))
    (hout : classify_endpoints env u p n endpoints out) :
    out.length = endpoints.length
    ∧ (out.map (fun d2 => Dict.get d2 Key.ip)).Perm
        (endpoints.map (fun e2 => Dict.get e2 Key.ip)) := by
  unfold classify_endpoints at hout
  rw [if_neg (by omega)] at hout
  obtain ⟨hlen, hmap⟩ := flatMap_workerStep_spec env u p endpoints hips
  refine ⟨hout.length_eq.trans hlen, ?_⟩
  have hperm := hout.map (fun d2 => Dict.get d2 Key.ip)
  rw [hmap] at hperm
  exact hperm

theorem claim_C1_witness :
    1 ≤ 1
    ∧ (∀ e2 ∈ [ep1], ∃ s, Dict.get e2 Key.ip = some (Value.str s))
    ∧ classify_endpoints envDead "admin" "TANDBERG" 1 [ep1] [ep1out]
    ∧ ([ep1out].length = [ep1].length
      ∧ ([ep1out].map (fun d2 => Dict.get d2 Key.ip)).Perm
          ([ep1].map (fun e2 => Dict.get e2 Key.ip))) := by
  have hips : ∀ e2 ∈ [ep1], ∃ s, Dict.get e2 Key.ip = some (Value.str s) := by
    intro e2 he2
    rw [List.mem_singleton] at he2
    subst he2
    exact ⟨"10.0.0.1", rfl⟩
  have hout : classify_endpoints envDead "admin" "TANDBERG" 1 [ep1] [ep1out] := by
    unfold classify_endpoints
    rw [if_neg (by decide)]
    exact List.Perm.refl _
  exact ⟨le_refl 1, hips, hout,
    claim_C1_classify_preserves envDead "admin" "TANDBERG" 1 [ep1] [ep1out]
      (le_refl 1) hips hout⟩

/-- Claim C2: scan_ip returns no record exactly when no probed port
accepted the TCP connect (whatever the force flag), and otherwise always
returns a record; consequently a host none of whose video-endpoint ports
respond never contributes a record to the sweep output, forced or not —
the force flag only influences the classification of a responding host. -/
theorem claim_C2_absent_iff :
    (∀ (env : Env) ip ports force u p,
      scan_ip env ip ports force u p = none ↔ ports.filter (env ip).connect = [])
    ∧ (∀ parse (env : Env) localR rng force u p bad,
        (∀ port ∈ VIDEO_ENDPOINT_PORTS, (env bad).connect port = false) →
        ∀ d2 ∈ scan_network parse env localR rng force u p,
          Dict.get d2 Key.ip ≠ some (Value.str bad)) := by
  constructor
  · exact scan_ip_none_iff
  · intro parse env localR rng force u p bad hconn d2 hd2
    unfold scan_network at hd2
    cases hp : parse (resolveRange localR rng) <;> rw [hp] at hd2
    case none => simp at hd2
    case some hosts =>
      obtain ⟨h2, hmem, hscan⟩ := List.mem_filterMap.1 hd2
      by_cases hb : h2 = bad
      · subst hb
        have hnone : scan_ip env h2 VIDEO_ENDPOINT_PORTS (decide (h2 ∈ force)) u p
            = none := by
          rw [scan_ip_none_iff]
          refine List.filter_eq_nil_iff.2 (fun port hport => ?_)
          rw [hconn port hport]
          simp
        rw [hnone] at hscan
        simp at hscan
      · rw [scan_ip_some_ip hscan]
        intro heq
        simp only [Option.some.injEq, Value.str.injEq] at heq
        exact hb heq

theorem claim_C2_witness :
    (scan_ip envDead "10.0.0.7" VIDEO_ENDPOINT_PORTS true "a" "b" = none
      ↔ VIDEO_ENDPOINT_PORTS.filter (envDead "10.0.0.7").connect = [])
    ∧ (∀ d2 ∈ scan_network (fun _ => some ["10.0.0.7"]) envDead "L"
          (some "10.0.0.0/24") ["10.0.0.7"] "a" "b",
        Dict.get d2 Key.ip ≠ some (Value.str "10.0.0.7")) :=
  ⟨claim_C2_absent_iff.1 envDead "10.0.0.7" VIDEO_ENDPOINT_PORTS true "a" "b",
   claim_C2_absent_iff.2 (fun _ => some ["10.0.0.7"]) envDead "L"
     (some "10.0.0.0/24") ["10.0.0.7"] "a" "b" "10.0.0.7" (fun _ _ => rfl)⟩

/-! ## Helpers for the sweep isolation property -/

theorem filterMap_congr_on {α β : Type} (f g : α → Option β) :
    ∀ L : List α, (∀ a ∈ L, f a = g a) → L.filterMap f = L.filterMap g := by
  intro L
  induction L with
  | nil => intro _; rfl
  | cons a L ih =>
    intro h
    rw [List.filterMap_cons, List.filterMap_cons, h a (by simp),
      ih (fun x hx => h x (by simp [hx]))]

theorem scan_filterMap_filter (env : Env) (force : List String) (u p bad : String) :
    ∀ L : List String,
      List.filter (fun d2 => decide (Dict.get d2 Key.ip ≠ some (Value.str bad)))
        (L.filterMap
          (fun h2 => scan_ip env h2 VIDEO_ENDPOINT_PORTS (decide (h2 ∈ force)) u p))
      = (L.filter (fun h2 => decide (h2 ≠ bad))).filterMap
          (fun h2 => scan_ip env h2 VIDEO_ENDPOINT_PORTS (decide (h2 ∈ force)) u p) := by
  intro L
  induction L with
  | nil => rfl
  | cons h2 L ih =>
    simp only [decide_not] at ih
    rw [List.filterMap_cons]
    by_cases hb : h2 = bad
    · subst hb
      cases hscan : scan_ip env h2 VIDEO_ENDPOINT_PORTS (decide (h2 ∈ force)) u p with
      | none => simp [hscan, List.filter_cons, ih]
      | some d2 =>
        have hip := scan_ip_some_ip hscan
        simp [hscan, List.filter_cons, hip, ih]
    · cases hscan : scan_ip env h2 VIDEO_ENDPOINT_PORTS (decide (h2 ∈ force)) u p with
      | none => simp [hscan, List.filter_cons, hb, ih]
      | some d2 =>
        have hip := scan_ip_some_ip hscan
        simp [hscan, List.filter_cons, hb, hip, ih]

theorem sip_responders_filter_congr (env env2 : Env) (u p bad : String)
    (henv : ∀ h2, h2 ≠ bad → env h2 = env2 h2) :
    ∀ L : List String,
      (L.filter (fun h2 => (scan_ip env h2 SIP_PORTS false u p).isSome)).filter
          (fun h2 => decide (h2 ≠ bad))
        = (L.filter (fun h2 => (scan_ip env2 h2 SIP_PORTS false u p).isSome)).filter
            (fun h2 => decide (h2 ≠ bad)) := by
  intro L
  rw [List.filter_filter, List.filter_filter]
  apply List.filter_congr
  intro a ha
  by_cases hb : a = bad
  · subst hb
    simp
  · have hcongr := scan_ip_congr (henv a hb) SIP_PORTS false u p
    simp [hcongr, hb]

/-- Claim C3: an invalid CIDR literal (the parse oracle answering none)
makes scan_network return the empty list instead of raising; and changing
the behaviour of one host arbitrarily (covering any per-host probe
failure) never changes the records the sweep returns for the other hosts,
so one host cannot abort the sweep or remove other results. -/
theorem claim_C3_error_handling :
    (∀ parse (env : Env) localR r force u p, r ≠ "" → parse r = none →
      scan_network parse env localR (some r) force u p = [])
    ∧ (∀ parse (env env2 : Env) localR rng force u p bad,
        (∀ h2, h2 ≠ bad → env h2 = env2 h2) →
        (scan_network parse env localR rng force u p).filter
            (fun d2 => decide (Dict.get d2 Key.ip ≠ some (Value.str bad)))
          = (scan_network parse env2 localR rng force u p).filter
              (fun d2 => decide (Dict.get d2 Key.ip ≠ some (Value.str bad)))) := by
  constructor
  · intro parse env localR r force u p hr hparse
    have hrr : resolveRange localR (some r) = r := by
      show (if r = "" then localR else r) = r
      rw [if_neg hr]
    unfold scan_network
    rw [hrr, hparse]
  · intro parse env env2 localR rng force u p bad henv
    unfold scan_network
    cases hp : parse (resolveRange localR rng) with
    | none => rfl
    | some hosts =>
      show (sweepHosts env force u p hosts).filter _
        = (sweepHosts env2 force u p hosts).filter _
      unfold sweepHosts
      rw [scan_filterMap_filter env force u p bad,
        scan_filterMap_filter env2 force u p bad]
      rw [List.filter_append, List.filter_append,
        sip_responders_filter_congr env env2 u p bad henv]
      apply filterMap_congr_on
      intro h2 hmem
      rcases List.mem_append.1 hmem with hmem2 | hmem2 <;>
        exact scan_ip_congr
          (henv h2 (of_decide_eq_true (List.mem_filter.1 hmem2).2)) _ _ _ _

theorem claim_C3_witness :
    scan_network (fun _ => none) envSip "local" (some "not-a-cidr") [] "a" "b" = []
    ∧ (scan_network (fun _ => some ["10.0.0.7", "10.0.0.8"]) envSip "local"
          (some "10.0.0.0/24") [] "a" "b").filter
        (fun d2 => decide (Dict.get d2 Key.ip ≠ some (Value.str "10.0.0.7")))
      = (scan_network (fun _ => some ["10.0.0.7", "10.0.0.8"]) envDead "local"
          (some "10.0.0.0/24") [] "a" "b").filter
        (fun d2 => decide (Dict.get d2 Key.ip ≠ some (Value.str "10.0.0.7"))) := by
  constructor
  · exact claim_C3_error_handling.1 (fun _ => none) envSip "local" "not-a-cidr"
      [] "a" "b" (by decide) rfl
  · exact claim_C3_error_handling.2 (fun _ => some ["10.0.0.7", "10.0.0.8"])
      envSip envDead "local" (some "10.0.0.0/24") [] "a" "b" "10.0.0.7"
      (fun h2 hne => by
        unfold envSip envDead
        rw [if_neg hne])

end Disco
